import Mathlib

/-!
Verification of the resume-screener scoring pipeline.

This file shallowly embeds the scoring/matching core of the repository:

* `backend/services/matching.py`  (`MatchingService`)
* `backend/services/embedding.py` (`EmbeddingService.calculate_similarity`,
  `store_resume_embedding`, `_rebuild_index_from_meta`)
* `backend/services/scoring.py`   (`ScoringEngine.evaluate_resume`)
* `backend/config.py`             (`Config` weights and thresholds)

Python floats are idealised as exact rationals (`ℚ`) except where a square
root is taken (`np.linalg.norm`), where exact reals (`ℝ`) are used.
Python strings are ASCII-idealised; `str.lower` is `Char.toLower` per char.
-/

/-! ### String helpers (Python `str.lower`, substring test, whitespace split) -/

/-- Lowercase a Python string, as a list of characters (`s.lower()`). -/
def low (s : String) : List Char := s.toList.map Char.toLower

/-- Decide whether `n` is a prefix of `h` (helper for the substring test). -/
def prefixOfB : List Char → List Char → Bool
  | [], _ => true
  | _ :: _, [] => false
  | a :: as, b :: bs => a = b && prefixOfB as bs

/-- Python's `needle in haystack` substring test on strings. -/
def isSubstr (needle : List Char) : List Char → Bool
  | [] => prefixOfB needle []
  | c :: cs => prefixOfB needle (c :: cs) || isSubstr needle cs

/-- Python `\s`-style whitespace (ASCII idealisation). -/
def isWs (c : Char) : Bool := c = ' ' || c = '\t' || c = '\n' || c = '\r'

/-- Accumulator worker for `splitWs`; `acc` holds the current word reversed. -/
def splitWsAux : List Char → List Char → List (List Char)
  | [], acc => if acc = [] then [] else [acc.reverse]
  | c :: cs, acc =>
    if isWs c then
      if acc = [] then splitWsAux cs [] else acc.reverse :: splitWsAux cs []
    else splitWsAux cs (c :: acc)

/-- Python `str.split()` with no argument: split on runs of whitespace,
dropping empty pieces. -/
def splitWs (l : List Char) : List (List Char) := splitWsAux l []

/-! ### The rapidfuzz similarity functions

`MatchingService._fuzzy_skill_match` calls the external `rapidfuzz`
library.  `fuzz.ratio` is the normalised InDel similarity rescaled to
0–100: `100 * (1 - dist/(|a|+|b|))` where the InDel distance is
`|a| + |b| - 2·lcs(a,b)`; `fuzz.partial_ratio` is the best `fuzz.ratio`
alignment of the shorter string against contiguous substrings of the
longer.  These two functions are modelled here from the library's
documented behaviour (they are not part of the repository source). -/

/-- Length of a longest common subsequence, with explicit fuel so that the
definition is structural (fuel `|a| + |b|` always suffices). -/
def lcsFuel : Nat → List Char → List Char → Nat
  | f + 1, a :: as, b :: bs =>
    if a = b then 1 + lcsFuel f as bs
    else max (lcsFuel f (a :: as) bs) (lcsFuel f as (b :: bs))
  | _, _, _ => 0

/-- Length of a longest common subsequence of two character lists. -/
def lcs (a b : List Char) : Nat := lcsFuel (a.length + b.length) a b

/-- Model of `rapidfuzz.fuzz.ratio`: normalised InDel similarity rescaled
to 0–100 (`100` on two empty strings, matching the library). -/
def fuzzRatio (a b : List Char) : ℚ :=
  if a.length + b.length = 0 then 100
  else 200 * (lcs a b : ℚ) / ((a.length : ℚ) + (b.length : ℚ))

/-- All contiguous substrings of a list (helper for `fuzzSubstringRatio`). -/
def substrs (l : List Char) : List (List Char) :=
  (l.tails.map List.inits).flatten

/-- Model of `rapidfuzz.fuzz.partial_ratio`: the optimal `fuzzRatio`
alignment of the shorter string within the longer one, taken here as the
maximum over all contiguous substrings of the longer string. -/
def fuzzSubstringRatio (a b : List Char) : ℚ :=
  if a.length ≤ b.length then (substrs b).foldl (fun acc w => max acc (fuzzRatio a w)) 0
  else (substrs a).foldl (fun acc w => max acc (fuzzRatio b w)) 0

/-! ### MatchingService helpers -/

/-- Embedding of `MatchingService._fuzzy_skill_match(skill, resume_skills,
threshold)`: true iff some resume skill clears the threshold under either
`fuzz.ratio` or `fuzz.partial_ratio`. -/
def fuzzy_skill_match (skill : List Char) (resume_skills : List (List Char))
    (threshold : ℚ) : Bool :=
  resume_skills.any fun rs =>
    decide (fuzzRatio skill rs ≥ threshold)
      || decide (fuzzSubstringRatio skill rs ≥ threshold)

/-! ### MatchingService._extract_experience_years

The three regex patterns
`(\d+)[\+\s]*years?\s+(?:of\s+)?experience`,
`experience[:\s]+(\d+)[\+\s]*years?` and
`(\d+)[\+\s]*years?\s+working` (all `re.IGNORECASE`), plus the fallback
`re.findall(r"20\d{2}")`, are compiled by hand into scanners.  Because no
character class of any pattern overlaps the literal that follows it,
greedy maximal munch is exact and no backtracking is needed (the one
alternation, `(?:of\s+)?`, is tried both ways). `re.search` is leftmost
search; `IGNORECASE` is modelled by lowercasing the text first. -/

/-- Drop an expected literal prefix, or fail. -/
def stripLit : List Char → List Char → Option (List Char)
  | [], cs => some cs
  | _ :: _, [] => none
  | l :: ls, c :: cs => if c = l then stripLit ls cs else none

/-- Require at least one whitespace character, then eat the whole run
(`\s+`, maximal munch). -/
def eatWs1 (cs : List Char) : Option (List Char) :=
  match cs with
  | c :: rest => if isWs c then some (rest.dropWhile isWs) else none
  | [] => none

/-- Character class `[\+\s]`. -/
def plusOrWs (c : Char) : Bool := c = '+' || isWs c

/-- Numeric value of a digit string (`int(match.group(1))`). -/
def digitsToNat (ds : List Char) : ℕ :=
  ds.foldl (fun acc c => 10 * acc + (c.toNat - 48)) 0

/-- Match `(\d+)[\+\s]*years?\s+(?:of\s+)?experience` at the head of `cs`,
returning the captured number. -/
def tryPat1 (cs : List Char) : Option ℕ :=
  let ds := cs.takeWhile Char.isDigit
  if ds = [] then none
  else
    let r1 := (cs.dropWhile Char.isDigit).dropWhile plusOrWs
    match stripLit "year".toList r1 with
    | none => none
    | some r2 =>
      let r3 := match r2 with | 's' :: t => t | _ => r2
      match eatWs1 r3 with
      | none => none
      | some r4 =>
        let withOf :=
          match stripLit "of".toList r4 with
          | some r5 =>
            match eatWs1 r5 with
            | some r6 => (stripLit "experience".toList r6).isSome
            | none => false
          | none => false
        if withOf || (stripLit "experience".toList r4).isSome then
          some (digitsToNat ds)
        else none

/-- Match `experience[:\s]+(\d+)[\+\s]*years?` at the head of `cs`. -/
def tryPat2 (cs : List Char) : Option ℕ :=
  match stripLit "experience".toList cs with
  | none => none
  | some r1 =>
    match r1 with
    | c :: rest =>
      if c = ':' || isWs c then
        let r2 := rest.dropWhile fun d => d = ':' || isWs d
        let ds := r2.takeWhile Char.isDigit
        if ds = [] then none
        else
          let r3 := (r2.dropWhile Char.isDigit).dropWhile plusOrWs
          if (stripLit "year".toList r3).isSome then some (digitsToNat ds)
          else none
      else none
    | [] => none

/-- Match `(\d+)[\+\s]*years?\s+working` at the head of `cs`. -/
def tryPat3 (cs : List Char) : Option ℕ :=
  let ds := cs.takeWhile Char.isDigit
  if ds = [] then none
  else
    let r1 := (cs.dropWhile Char.isDigit).dropWhile plusOrWs
    match stripLit "year".toList r1 with
    | none => none
    | some r2 =>
      let r3 := match r2 with | 's' :: t => t | _ => r2
      match eatWs1 r3 with
      | none => none
      | some r4 =>
        if (stripLit "working".toList r4).isSome then some (digitsToNat ds)
        else none

/-- Leftmost search (`re.search`): try the pattern at every position,
earliest first. -/
def searchNat (pat : List Char → Option ℕ) : List Char → Option ℕ
  | [] => pat []
  | c :: cs =>
    match pat (c :: cs) with
    | some n => some n
    | none => searchNat pat cs

/-- Collect non-overlapping matches of `20\d{2}`, left to right
(`re.findall`). -/
def findYears : List Char → List ℕ
  | '2' :: '0' :: c :: d :: rest =>
    if c.isDigit && d.isDigit then
      (2000 + 10 * (c.toNat - 48) + (d.toNat - 48)) :: findYears rest
    else findYears ('0' :: c :: d :: rest)
  | _ :: rest => findYears rest
  | [] => []

/-- Embedding of `MatchingService._extract_experience_years(text)`. -/
def extract_experience_years (text : String) : ℕ :=
  let cs := low text
  match searchNat tryPat1 cs with
  | some n => n
  | none =>
  match searchNat tryPat2 cs with
  | some n => n
  | none =>
  match searchNat tryPat3 cs with
  | some n => n
  | none =>
    match findYears cs with
    | y1 :: y2 :: ys =>
      ((y2 :: ys).foldl max y1) - ((y2 :: ys).foldl min y1)
    | _ => 0

/-! ### MatchingService._extract_keywords and _match_education -/

/-- Stop-word set hard-coded in `MatchingService._extract_keywords`. -/
def kw_stop_words : List (List Char) :=
  ["the", "is", "at", "which", "on", "and", "a", "an", "as", "are",
   "was", "were", "be", "been", "being", "have", "has", "had", "do",
   "does", "did", "will", "would", "could", "should", "may", "might"
  ].map String.toList

/-- Word character (`\w`, ASCII idealisation): alphanumeric or underscore. -/
def isWordChar (c : Char) : Bool := c.isAlphanum || c = '_'

/-- Embedding of `MatchingService._extract_keywords(text, top_n)`:
lowercase, whitespace-split, strip non-word characters
(`re.sub(r"[^\w\s]", "", word)`), keep words longer than 3 characters
that are not stop words, deduplicate keeping first occurrences, and take
the first `top_n`. -/
def extract_keywords (text : String) (top_n : ℕ := 20) : List (List Char) :=
  let words := splitWs (low text)
  let keywords := (words.map fun w => w.filter isWordChar).filter
    fun w => 3 < w.length && !kw_stop_words.contains w
  keywords.eraseDups.take top_n

/-- An entry of a resume's `education` list (a dict with `degree` and
`context` keys in the source; entries are modelled as always dict-shaped,
so the source's `isinstance(edu, dict)` test is always true). -/
structure EduEntry where
  degree : String
  context : String
deriving DecidableEq

/-- Embedding of `MatchingService._match_education(resume_education,
job_requirements)`: the fraction of requirement strings occurring as a
case-insensitive substring of the space-joined lowercased degree/context
strings. -/
def match_education (resume_education : List EduEntry)
    (job_requirements : List String) : ℚ :=
  if job_requirements = [] then 1
  else
    let resume_degrees := resume_education.flatMap fun e => [low e.degree, low e.context]
    let resume_text := List.intercalate [' '] resume_degrees
    let nMatched := job_requirements.countP fun r => isSubstr (low r) resume_text
    (nMatched : ℚ) / (job_requirements.length : ℚ)

/-! ### Dot products and cosine similarity

Vector components are exact rationals; `np.linalg.norm` introduces a
square root, so similarity values live in `ℝ`.  `np.dot` requires equal
dimensions (it raises otherwise); the embedding zips, which agrees with
the source on every equal-length pair. -/

/-- Recursive dot product of two rational vectors (`np.dot`). -/
def dotQ : List ℚ → List ℚ → ℚ
  | a :: as, b :: bs => a * b + dotQ as bs
  | _, _ => 0

/-- Euclidean norm `np.linalg.norm(v)` as a real number. -/
noncomputable def normV (v : List ℚ) : ℝ := Real.sqrt ((dotQ v v : ℚ) : ℝ)

/-- Embedding of `MatchingService._cosine_similarity(vec1, vec2)`:
cosine of the angle between the vectors, `0.0` when either norm is zero. -/
noncomputable def cosine_similarity (vec1 vec2 : List ℚ) : ℝ :=
  if normV vec1 = 0 ∨ normV vec2 = 0 then 0
  else ((dotQ vec1 vec2 : ℚ) : ℝ) / (normV vec1 * normV vec2)

/-- Embedding of `EmbeddingService.calculate_similarity(e1, e2)`: cosine
similarity rescaled by 100 (`0.0` on a zero-norm input). -/
noncomputable def calculate_similarity (embedding1 embedding2 : List ℚ) : ℝ :=
  if normV embedding1 = 0 ∨ normV embedding2 = 0 then 0
  else ((dotQ embedding1 embedding2 : ℚ) : ℝ) /
        (normV embedding1 * normV embedding2) * 100

/-! ### Data model (`backend/models`, dict payloads of the services)

Dict payloads are modelled as records.  `dict.get(key, default)` on a
possibly-missing key is modelled by `Option` where a claim depends on
absence (`max_experience`, `embeddings`) and by the default value
directly otherwise (`min_experience`, the list fields). -/

/-- A resume record as consumed by the scorers. -/
structure Resume where
  id : String
  skills : List String
  education : List EduEntry
  certifications : List String
  raw_text : String
  processed_text : String
  embeddings : Option (List ℚ)

/-- A job-description record as consumed by the scorers. -/
structure Job where
  id : String
  required_skills : List String
  optional_skills : List String
  min_experience : ℚ
  max_experience : Option ℚ
  education_requirements : List String
  certifications_required : List String
  raw_text : String
  processed_text : String
  embeddings : Option (List ℚ)

/-- Result dict of `MatchingService.calculate_hard_match`.  The
`details` sub-dict is modelled by the `resume_experience` /
`required_experience_min` / `required_experience_max` fields (the source
renders the latter two as the string `f"{min_exp}-{max_exp} years"`).
Skill strings in the lists are lowercased, as in the source. -/
structure HardMatchResult where
  skills_match : ℚ
  education_match : ℚ
  experience_match : ℚ
  certification_match : ℚ
  matched_skills : List (List Char)
  missing_skills : List (List Char)
  matched_certifications : List (List Char)
  missing_certifications : List (List Char)
  resume_experience : ℕ
  required_experience_min : ℚ
  required_experience_max : ℚ
  overall_hard_match : ℚ

/-- Embedding of `MatchingService.calculate_hard_match(resume, job_desc)`. -/
def calculate_hard_match (resume : Resume) (job_desc : Job) : HardMatchResult :=
  -- 1. Skills matching (all skill strings lowercased first)
  let resume_skills := resume.skills.map low
  let required_skills := job_desc.required_skills.map low
  let optional_skills := job_desc.optional_skills.map low
  let matched_required := required_skills.filter fun s => fuzzy_skill_match s resume_skills 80
  let missing_required := required_skills.filter fun s => !fuzzy_skill_match s resume_skills 80
  let matched_optional := optional_skills.filter fun s => fuzzy_skill_match s resume_skills 80
  let required_score : ℚ :=
    if required_skills = [] then 70
    else ((matched_required.length : ℚ) / (required_skills.length : ℚ)) * 70
  let optional_score : ℚ :=
    if optional_skills = [] then 30
    else ((matched_optional.length : ℚ) / (optional_skills.length : ℚ)) * 30
  -- 2. Experience matching
  let min_exp := job_desc.min_experience
  let max_exp := job_desc.max_experience.getD (if min_exp ≥ 0 then min_exp + 10 else 10)
  let resume_exp := extract_experience_years resume.raw_text
  let experience_match : ℚ :=
    if (resume_exp : ℚ) ≥ min_exp then
      if (resume_exp : ℚ) ≤ max_exp then 100 else 80
    else
      if min_exp > 0 then ((resume_exp : ℚ) / min_exp) * 100 else 100
  -- 3. Education matching (`if job_education and resume_education`)
  let education_match : ℚ :=
    if job_desc.education_requirements ≠ [] ∧ resume.education ≠ [] then
      match_education resume.education job_desc.education_requirements * 100
    else 100
  -- 4. Certification matching (threshold 70)
  let resume_certs := resume.certifications.map low
  let required_certs := job_desc.certifications_required.map low
  let matched_certs := required_certs.filter fun c => fuzzy_skill_match c resume_certs 70
  let missing_certs := required_certs.filter fun c => !fuzzy_skill_match c resume_certs 70
  let certification_match : ℚ :=
    if required_certs = [] then 100
    else ((matched_certs.length : ℚ) / (required_certs.length : ℚ)) * 100
  -- 5. Overall hard match using weights skills 0.5 / experience 0.3 /
  --    education 0.15 / certifications 0.05
  let skills_match := required_score + optional_score
  { skills_match := skills_match
    education_match := education_match
    experience_match := experience_match
    certification_match := certification_match
    matched_skills := matched_required ++ matched_optional
    missing_skills := missing_required
    matched_certifications := matched_certs
    missing_certifications := missing_certs
    resume_experience := resume_exp
    required_experience_min := min_exp
    required_experience_max := max_exp
    overall_hard_match :=
      skills_match * 0.5 + experience_match * 0.3 +
      education_match * 0.15 + certification_match * 0.05 }

/-- Result dict of `MatchingService.calculate_soft_match`. -/
structure SoftMatchResult where
  tfidf_similarity : ℚ
  embedding_similarity : ℝ
  keyword_density : ℚ
  overall_soft_match : ℝ

/-- Embedding of `MatchingService.calculate_soft_match(resume_text,
job_text, resume_embedding, job_embedding)`.

The TF-IDF block delegates to the external `sklearn` vectorizer inside a
`try`/`except` that yields `0` on any vectorization failure (e.g. an
empty vocabulary once English stop words are removed); its resulting
value is taken as the parameter `tfidf_sim` here. -/
noncomputable def calculate_soft_match (tfidf_sim : ℚ) (resume_text job_text : String)
    (resume_embedding job_embedding : Option (List ℚ)) : SoftMatchResult :=
  -- 2. Embedding similarity (only when both embeddings are not None)
  let embedding_similarity : ℝ :=
    match resume_embedding, job_embedding with
    | some v1, some v2 => cosine_similarity v1 v2 * 100
    | _, _ => 0
  -- 3. Keyword density
  let job_keywords := extract_keywords job_text
  let keyword_matches := job_keywords.countP fun k => isSubstr k (low resume_text)
  let keyword_density : ℚ :=
    if job_keywords = [] then 0
    else ((keyword_matches : ℚ) / (job_keywords.length : ℚ)) * 100
  -- 4. Overall soft match, weights tfidf 0.3 / embedding 0.5 / keywords 0.2
  { tfidf_similarity := tfidf_sim
    embedding_similarity := embedding_similarity
    keyword_density := keyword_density
    overall_soft_match :=
      (tfidf_sim : ℝ) * 0.3 + embedding_similarity * 0.5 +
      (keyword_density : ℝ) * 0.2 }

/-! ### EmbeddingService: embedding generation and the vector store -/

/-- Embedding of `EmbeddingService.generate_embeddings(text)`: a zero
vector of the model dimension on empty text, otherwise the (external)
sentence encoder `enc` applied to the text. -/
def generate_embeddings (enc : String → List ℚ) (dim : ℕ) (text : String) : List ℚ :=
  if text = "" then List.replicate dim 0 else enc text

/-- In-memory state of one namespace of the vector store: the FAISS
`IndexIDMap` contents (an append-only list of id/vector rows — FAISS
does not deduplicate ids on `add_with_ids`) and the JSON metadata dict
(stringified id → record id; the free-form metadata payload is elided). -/
structure StoreState where
  index : List (ℤ × List ℚ)
  meta : List (String × String)

/-- Python dict insertion: replace the value of an existing key in
place, else append a new binding. -/
def dictInsert {V : Type} : List (String × V) → String → V → List (String × V)
  | [], k, v => [(k, v)]
  | (k', v') :: rest, k, v =>
    if k' = k then (k, v) :: rest else (k', v') :: dictInsert rest k v

/-- Embedding of `EmbeddingService._rebuild_index_from_meta(index, meta)`:
the body is `pass`, so the index is returned unchanged. -/
def rebuild_index_from_meta (index : List (ℤ × List ℚ))
    (_meta : List (String × String)) : List (ℤ × List ℚ) := index

/-- Embedding of `EmbeddingService.store_resume_embedding(resume_id,
text)`.  `strToId` stands for the external `_str_to_id` MD5-truncation
hash; `firstAddFails` tells whether the first `index.add_with_ids` call
raises, in which case the source rebuilds (a no-op) and retries (the
retry is assumed to succeed; if it also raised, the whole call would
propagate the exception leaving both structures unchanged). -/
def store_resume_embedding (enc : String → List ℚ) (dim : ℕ)
    (strToId : String → ℤ) (s : StoreState) (resume_id : String)
    (text : String) (firstAddFails : Bool) : StoreState :=
  let embedding := generate_embeddings enc dim text
  let id_int := strToId resume_id
  let index1 :=
    if firstAddFails then
      rebuild_index_from_meta s.index s.meta ++ [(id_int, embedding)]
    else s.index ++ [(id_int, embedding)]
  { index := index1, meta := dictInsert s.meta (toString id_int) resume_id }

/-- A sequence of `store_resume_embedding` calls on one namespace; each
operation is (record id, text, does-the-first-insert-fail). -/
def runStores (enc : String → List ℚ) (dim : ℕ) (strToId : String → ℤ)
    (s : StoreState) (ops : List (String × String × Bool)) : StoreState :=
  ops.foldl (fun st op => store_resume_embedding enc dim strToId st op.1 op.2.1 op.2.2) s

/-- The spec's vector-store invariant: the number of vectors in the index
equals the number of entries in the metadata map. -/
def storeInvariant (s : StoreState) : Prop := s.index.length = s.meta.length

/-! ### ScoringEngine (`backend/services/scoring.py`) and Config -/

/-- The configuration values of `backend/config.py` used by the engine
(all overridable through the environment). -/
structure Config where
  HARD_MATCH_WEIGHT : ℚ
  SOFT_MATCH_WEIGHT : ℚ
  HIGH_THRESHOLD : ℚ
  MEDIUM_THRESHOLD : ℚ

/-- The default configuration: weights 0.4 / 0.6, thresholds 75 / 50. -/
def defaultConfig : Config :=
  { HARD_MATCH_WEIGHT := 0.4
    SOFT_MATCH_WEIGHT := 0.6
    HIGH_THRESHOLD := 75
    MEDIUM_THRESHOLD := 50 }

/-- Resolution of `record.get('embeddings') or generate_embeddings(
record.get('processed_text', ''))`: Python `or` falls through on a
missing key (`None`) and on an empty stored list (falsy). -/
def resolveEmbedding (enc : String → List ℚ) (dim : ℕ)
    (stored : Option (List ℚ)) (text : String) : List ℚ :=
  match stored with
  | some v => if v = [] then generate_embeddings enc dim text else v
  | none => generate_embeddings enc dim text

/-- The soft score the fusion engine combines (scoring.py lines 26–29):
`EmbeddingService.calculate_similarity` of the two resolved embeddings. -/
noncomputable def soft_score_used (enc : String → List ℚ) (dim : ℕ)
    (resume : Resume) (job_desc : Job) : ℝ :=
  calculate_similarity
    (resolveEmbedding enc dim resume.embeddings resume.processed_text)
    (resolveEmbedding enc dim job_desc.embeddings job_desc.processed_text)

/-- The engine's `relevance_score` local variable after the two clamping
`if` statements (scoring.py lines 36–42), before rounding. -/
noncomputable def relevance_raw (enc : String → List ℚ) (dim : ℕ) (cfg : Config)
    (resume : Resume) (job_desc : Job) : ℝ :=
  let hard_score := (calculate_hard_match resume job_desc).overall_hard_match
  let soft_score := soft_score_used enc dim resume job_desc
  let r := (hard_score : ℝ) * (cfg.HARD_MATCH_WEIGHT : ℝ) +
    soft_score * (cfg.SOFT_MATCH_WEIGHT : ℝ)
  let r1 := if r > 100 then (100 : ℝ) else r
  if r1 < 0 then 0 else r1

/-- Python's `round(x, 2)` on the exact-decimal idealisation: round half
to even at the second decimal place. -/
def roundHalfToEven {α : Type} [LinearOrderedField α] [FloorRing α] (x : α) : ℤ :=
  if x - ⌊x⌋ < 1 / 2 then ⌊x⌋
  else if x - ⌊x⌋ > 1 / 2 then ⌊x⌋ + 1
  else if 2 ∣ ⌊x⌋ then ⌊x⌋ else ⌊x⌋ + 1

/-- Value stored by `round(x, 2)`. -/
def pyRound2 {α : Type} [LinearOrderedField α] [FloorRing α] (x : α) : α :=
  (roundHalfToEven (x * 100) : ℤ) / 100

/-- Verdict assignment of scoring.py lines 59–65: `HIGH` first, then
`MEDIUM`, else `LOW`, with `≥` comparisons. -/
noncomputable def verdictOf (cfg : Config) (score : ℝ) : String :=
  if score ≥ (cfg.HIGH_THRESHOLD : ℝ) then "HIGH"
  else if score ≥ (cfg.MEDIUM_THRESHOLD : ℝ) then "MEDIUM"
  else "LOW"

/-- The feedback dict of `ScoringEngine.generate_feedback`. -/
structure Feedback where
  strengths : List String
  improvements : List String
  suggestions : List String

/-- Embedding of `ScoringEngine.generate_feedback` (a deterministic
template over the matched/missing skill lists of the analysis). -/
def generate_feedback (matched missing : List (List Char)) : Feedback :=
  { strengths :=
      if matched = [] then []
      else ["Matched skills: " ++ String.intercalate ", " ((matched.take 6).map String.mk)]
    improvements :=
      if missing = [] then []
      else ["Missing key skills: " ++ String.intercalate ", " ((missing.take 6).map String.mk)]
    suggestions :=
      if missing = [] then []
      else ["Consider projects or a micro-course to demonstrate these skills."] }

/-- The evaluation dict returned by `ScoringEngine.evaluate_resume`. -/
structure Evaluation where
  resume_id : String
  job_id : String
  relevance_score : ℝ
  hard_match_score : ℚ
  soft_match_score : ℝ
  matched_skills : List (List Char)
  missing_skills : List (List Char)
  verdict : String
  feedback : Feedback

/-- Embedding of `ScoringEngine.evaluate_resume(resume, job_desc)`.
`enc`/`dim` stand for the external sentence-transformer model used when
an input record carries no usable embedding. -/
noncomputable def evaluate_resume (enc : String → List ℚ) (dim : ℕ) (cfg : Config)
    (resume : Resume) (job_desc : Job) : Evaluation :=
  let hm := calculate_hard_match resume job_desc
  let rel := relevance_raw enc dim cfg resume job_desc
  { resume_id := resume.id
    job_id := job_desc.id
    relevance_score := pyRound2 rel
    hard_match_score := pyRound2 hm.overall_hard_match
    soft_match_score := pyRound2 (soft_score_used enc dim resume job_desc)
    matched_skills := hm.matched_skills
    missing_skills := hm.missing_skills
    verdict := verdictOf cfg rel
    feedback := generate_feedback hm.matched_skills hm.missing_skills }

/-! ### Concrete records used to instantiate the claims -/

/-- A trivial stand-in for the external sentence encoder (never consulted
in the concrete instances below, whose records carry embeddings). -/
def encZero : String → List ℚ := fun _ => []

/-- A resume with every field empty. -/
def emptyResume : Resume :=
  { id := "", skills := [], education := [], certifications := [],
    raw_text := "", processed_text := "", embeddings := none }

/-- A job with every field empty and `min_experience = 0`. -/
def emptyJob : Job :=
  { id := "", required_skills := [], optional_skills := [],
    min_experience := 0, max_experience := none,
    education_requirements := [], certifications_required := [],
    raw_text := "", processed_text := "", embeddings := none }

/-- C1 resume: text made only of English stop words (so the TF-IDF
vectorizer fails with an empty vocabulary and the keyword extractor
yields nothing), with a stored unit embedding. -/
def rC1 : Resume :=
  { emptyResume with
    raw_text := "of the and"
    processed_text := "of the and"
    embeddings := some [1] }

/-- C1 job: same stop-word text, same stored unit embedding. -/
def jC1 : Job :=
  { emptyJob with
    raw_text := "of the and"
    processed_text := "of the and"
    embeddings := some [1] }

/-- C4 resume: skills `{"Python", "AWS"}` (spec §8 scenario). -/
def rC4 : Resume := { emptyResume with skills := ["Python", "AWS"] }

/-- C4 job: required `{"python", "sql"}`, optional `{"docker"}`. -/
def jC4 : Job :=
  { emptyJob with
    required_skills := ["python", "sql"]
    optional_skills := ["docker"] }

/-- C5 job: one education requirement. -/
def jC5 : Job := { emptyJob with education_requirements := ["bachelor"] }

/-- C5 auxiliary resume: one education entry matching `"bachelor"`. -/
def rC5b : Resume :=
  { emptyResume with
    education := [{ degree := "Bachelor of Science", context := "B.S. in CS" }] }

/-- C9 resume: a single skill `"python"`. -/
def rC9 : Resume := { emptyResume with skills := ["python"] }

/-- C10 resume: no skills, 283 extractable years of experience, stored
embedding `[3, 4]` (norm 5). -/
def rC10 : Resume :=
  { emptyResume with
    raw_text := "283 years experience"
    embeddings := some [3, 4] }

/-- C10 job: one required skill no resume skill can match, a 1000-year
experience floor, stored embedding `[4, 3]` (norm 5, cosine 24/25 against
`[3, 4]`). -/
def jC10 : Job :=
  { emptyJob with
    required_skills := ["python"]
    min_experience := 1000
    embeddings := some [4, 3] }

/-! ### Basic lemmas about dot products and norms -/

/-- A dot product of a vector with itself is nonnegative. -/
theorem dotQ_self_nonneg (v : List ℚ) : 0 ≤ dotQ v v := by
  induction v with
  | nil => simp [dotQ]
  | cons a as ih => simp only [dotQ]; nlinarith [sq_nonneg a]

/-- Cauchy–Schwarz for the recursive dot product (any lengths). -/
theorem dotQ_sq_le (v1 v2 : List ℚ) :
    dotQ v1 v2 ^ 2 ≤ dotQ v1 v1 * dotQ v2 v2 := by
  induction v1 generalizing v2 with
  | nil => cases v2 <;> simp [dotQ]
  | cons a as ih =>
    cases v2 with
    | nil => simp [dotQ]
    | cons b bs =>
      have h := ih bs
      have hA := dotQ_self_nonneg as
      have hB := dotQ_self_nonneg bs
      simp only [dotQ]
      rcases eq_or_lt_of_le hB with hB0 | hBpos
      · have h' : dotQ as bs ^ 2 ≤ 0 := by rw [← hB0, mul_zero] at h; exact h
        have hd : dotQ as bs = 0 :=
          sq_eq_zero_iff.mp (le_antisymm h' (sq_nonneg _))
        rw [hd, ← hB0]
        nlinarith [mul_nonneg hA (mul_self_nonneg b)]
      · have h1 : 2 * a * b * dotQ as bs * dotQ bs bs ≤
            (a ^ 2 * dotQ bs bs + b ^ 2 * dotQ as as) * dotQ bs bs := by
          nlinarith [sq_nonneg (a * dotQ bs bs - b * dotQ as bs),
            mul_le_mul_of_nonneg_left h (sq_nonneg b)]
        have key : 2 * a * b * dotQ as bs ≤
            a ^ 2 * dotQ bs bs + b ^ 2 * dotQ as as :=
          le_of_mul_le_mul_right h1 hBpos
        nlinarith [key, h]

/-- The norm vanishes exactly when the self-dot-product vanishes. -/
theorem normV_eq_zero_iff (v : List ℚ) : normV v = 0 ↔ dotQ v v = 0 := by
  unfold normV
  rw [Real.sqrt_eq_zero (by exact_mod_cast dotQ_self_nonneg v)]
  exact_mod_cast Iff.rfl

/-- Norms are nonnegative. -/
theorem normV_nonneg (v : List ℚ) : 0 ≤ normV v := Real.sqrt_nonneg _

/-- The absolute value of a dot product is at most the product of norms. -/
theorem abs_dotQ_le (v1 v2 : List ℚ) :
    |((dotQ v1 v2 : ℚ) : ℝ)| ≤ normV v1 * normV v2 := by
  have h : ((dotQ v1 v2 : ℚ) : ℝ) ^ 2 ≤
      ((dotQ v1 v1 : ℚ) : ℝ) * ((dotQ v2 v2 : ℚ) : ℝ) := by
    exact_mod_cast dotQ_sq_le v1 v2
  have h2 := Real.sqrt_le_sqrt h
  rwa [Real.sqrt_sq_eq_abs, Real.sqrt_mul (by exact_mod_cast dotQ_self_nonneg v1)]
    at h2

/-- Claim C6 (amended): for all input vectors, the embedding similarity
lies in `[-100, 100]` (cosine rescaled to a percentage can be negative),
returns exactly `0` when either vector has zero norm, and is total (the
division by the norms is guarded by the zero-norm test). -/
theorem C6_similarity_range (v1 v2 : List ℚ) :
    -100 ≤ calculate_similarity v1 v2 ∧ calculate_similarity v1 v2 ≤ 100 ∧
      ((normV v1 = 0 ∨ normV v2 = 0) → calculate_similarity v1 v2 = 0) := by
  unfold calculate_similarity
  by_cases h : normV v1 = 0 ∨ normV v2 = 0
  · rw [if_pos h]
    norm_num
  · rw [if_neg h]
    push_neg at h
    have hn1 : 0 < normV v1 := lt_of_le_of_ne (normV_nonneg v1) (Ne.symm h.1)
    have hn2 : 0 < normV v2 := lt_of_le_of_ne (normV_nonneg v2) (Ne.symm h.2)
    have hd : 0 < normV v1 * normV v2 := mul_pos hn1 hn2
    have habs := abs_dotQ_le v1 v2
    have hup : ((dotQ v1 v2 : ℚ) : ℝ) / (normV v1 * normV v2) ≤ 1 :=
      (div_le_one hd).mpr (le_of_abs_le habs)
    have hlo : (-1 : ℝ) ≤ ((dotQ v1 v2 : ℚ) : ℝ) / (normV v1 * normV v2) :=
      (le_div_iff₀ hd).mpr (by nlinarith [neg_abs_le ((dotQ v1 v2 : ℚ) : ℝ)])
    refine ⟨by nlinarith, by nlinarith, fun hc => ?_⟩
    rcases hc with hc | hc
    · exact absurd hc h.1
    · exact absurd hc h.2

/-- Witness for C6: a zero-norm input yields 0 and the lower bound holds
at a concrete pair. -/
theorem C6_similarity_range_witness :
    calculate_similarity [0] [1] = 0 ∧ -100 ≤ calculate_similarity [1] [-1] :=
  ⟨(C6_similarity_range [0] [1]).2.2
      (Or.inl (by simp [normV, dotQ])),
    (C6_similarity_range [1] [-1]).1⟩

/-- Counterexample to C6 as stated: on the unit vectors `[1]` and `[-1]`
the similarity is `-100`, which is not in `[0, 100]`. -/
theorem C6_counterexample :
    calculate_similarity [1] [-1] = -100 ∧
      ¬ (0 ≤ calculate_similarity [1] [-1]) := by
  have hn1 : normV [(1 : ℚ)] = 1 := by
    simp [normV, dotQ]
  have hn2 : normV [(-1 : ℚ)] = 1 := by
    simp [normV, dotQ]
  have hval : calculate_similarity [1] [-1] = -100 := by
    unfold calculate_similarity
    rw [if_neg (by rw [hn1, hn2]; norm_num)]
    rw [hn1, hn2]
    norm_num [dotQ]
  exact ⟨hval, by rw [hval]; norm_num⟩

/-! ### Rounding lemmas -/

/-- Round-half-to-even never goes below an integer lower bound. -/
theorem roundHalfToEven_ge {α : Type} [LinearOrderedField α] [FloorRing α]
    (x : α) (n : ℤ) (h : (n : α) ≤ x) : n ≤ roundHalfToEven x := by
  have hf : n ≤ ⌊x⌋ := Int.le_floor.mpr h
  unfold roundHalfToEven
  split_ifs <;> omega

/-- Round-half-to-even never exceeds an integer upper bound. -/
theorem roundHalfToEven_le {α : Type} [LinearOrderedField α] [FloorRing α]
    (x : α) (n : ℤ) (h : x ≤ (n : α)) : roundHalfToEven x ≤ n := by
  have hf : ⌊x⌋ ≤ n := by
    have := Int.floor_le_floor h
    simpa using this
  unfold roundHalfToEven
  split_ifs with h1 h2 h3
  · exact hf
  · -- x - ⌊x⌋ > 1/2, so ⌊x⌋ < n and ⌊x⌋ + 1 ≤ n
    have hlt : (⌊x⌋ : α) < n := by
      have := Int.floor_le x
      linarith
    have : ⌊x⌋ < n := by exact_mod_cast hlt
    omega
  · exact hf
  · have hlt : (⌊x⌋ : α) < n := by
      have h12 : x - ⌊x⌋ = 1 / 2 := le_antisymm (not_lt.mp h2) (not_lt.mp h1)
      linarith
    have : ⌊x⌋ < n := by exact_mod_cast hlt
    omega

/-- Rounding to two decimals preserves the `[0, 100]` band. -/
theorem pyRound2_mem_0_100 {α : Type} [LinearOrderedField α] [FloorRing α]
    (x : α) (h0 : 0 ≤ x) (h1 : x ≤ 100) :
    0 ≤ pyRound2 x ∧ pyRound2 x ≤ 100 := by
  have hg : (0 : ℤ) ≤ roundHalfToEven (x * 100) :=
    roundHalfToEven_ge (x * 100) 0 (by push_cast; nlinarith)
  have hl : roundHalfToEven (x * 100) ≤ (10000 : ℤ) :=
    roundHalfToEven_le (x * 100) 10000 (by push_cast; nlinarith)
  unfold pyRound2
  constructor
  · exact div_nonneg (by exact_mod_cast hg) (by norm_num)
  · rw [div_le_iff₀ (by norm_num : (0 : α) < 100)]
    have : ((roundHalfToEven (x * 100) : ℤ) : α) ≤ 10000 := by exact_mod_cast hl
    linarith

/-- The engine's two sequential clamping `if` statements compute
`max 0 (min 100 r)`. -/
theorem clamp_eq (r : ℝ) :
    (if (if r > 100 then (100 : ℝ) else r) < 0 then (0 : ℝ)
     else if r > 100 then (100 : ℝ) else r) = max 0 (min 100 r) := by
  by_cases h1 : r > 100
  · rw [if_pos h1, if_neg (by norm_num : ¬ (100 : ℝ) < 0),
      min_eq_left h1.le, max_eq_right (by norm_num : (0 : ℝ) ≤ 100)]
  · rw [if_neg h1]
    push_neg at h1
    by_cases h2 : r < 0
    · rw [if_pos h2, min_eq_right h1, max_eq_left h2.le]
    · push_neg at h2
      rw [if_neg (not_lt.mpr h2), min_eq_right h1, max_eq_right h2]

/-- Claim C2: the engine's relevance score is the clamp to `[0, 100]` of
`hard_overall · w_hard + soft_overall · w_soft` with the configured
weights applied directly (no renormalization, for every weight
configuration); hence it always lies in `[0, 100]`, as does the rounded
`relevance_score` field of the evaluation.  The default weights are
0.4 and 0.6. -/
theorem C2_relevance_clamped (enc : String → List ℚ) (dim : ℕ) (cfg : Config)
    (resume : Resume) (job_desc : Job) :
    relevance_raw enc dim cfg resume job_desc =
      max 0 (min 100
        (((calculate_hard_match resume job_desc).overall_hard_match : ℝ) *
            (cfg.HARD_MATCH_WEIGHT : ℝ) +
          soft_score_used enc dim resume job_desc * (cfg.SOFT_MATCH_WEIGHT : ℝ))) ∧
    0 ≤ relevance_raw enc dim cfg resume job_desc ∧
    relevance_raw enc dim cfg resume job_desc ≤ 100 ∧
    (evaluate_resume enc dim cfg resume job_desc).relevance_score =
      pyRound2 (relevance_raw enc dim cfg resume job_desc) ∧
    0 ≤ (evaluate_resume enc dim cfg resume job_desc).relevance_score ∧
    (evaluate_resume enc dim cfg resume job_desc).relevance_score ≤ 100 ∧
    defaultConfig.HARD_MATCH_WEIGHT = 2 / 5 ∧
    defaultConfig.SOFT_MATCH_WEIGHT = 3 / 5 := by
  have hval : relevance_raw enc dim cfg resume job_desc =
      max 0 (min 100
        (((calculate_hard_match resume job_desc).overall_hard_match : ℝ) *
            (cfg.HARD_MATCH_WEIGHT : ℝ) +
          soft_score_used enc dim resume job_desc * (cfg.SOFT_MATCH_WEIGHT : ℝ))) := by
    simp only [relevance_raw]
    exact clamp_eq _
  have h0 : 0 ≤ relevance_raw enc dim cfg resume job_desc := by
    rw [hval]; exact le_max_left _ _
  have h100 : relevance_raw enc dim cfg resume job_desc ≤ 100 := by
    rw [hval]
    exact max_le (by norm_num) (min_le_left _ _)
  have hround : (evaluate_resume enc dim cfg resume job_desc).relevance_score =
      pyRound2 (relevance_raw enc dim cfg resume job_desc) := rfl
  have hb := pyRound2_mem_0_100 (relevance_raw enc dim cfg resume job_desc) h0 h100
  refine ⟨hval, h0, h100, hround, ?_, ?_, by norm_num [defaultConfig], by norm_num [defaultConfig]⟩
  · rw [hround]; exact hb.1
  · rw [hround]; exact hb.2

/-- Claim C3: the verdict is assigned from inclusive lower bounds checked
HIGH first and then MEDIUM; with the default thresholds a score of
exactly 75.0 is HIGH, 74.999 is MEDIUM and 49.999 is LOW, so boundary
values fall into the higher tier. -/
theorem C3_verdict_tiers :
    (∀ (enc : String → List ℚ) (dim : ℕ) (cfg : Config) (r : Resume) (j : Job),
      (evaluate_resume enc dim cfg r j).verdict =
        verdictOf cfg (relevance_raw enc dim cfg r j)) ∧
    (∀ s : ℝ, (75 : ℝ) ≤ s → verdictOf defaultConfig s = "HIGH") ∧
    (∀ s : ℝ, (50 : ℝ) ≤ s → s < 75 → verdictOf defaultConfig s = "MEDIUM") ∧
    (∀ s : ℝ, s < 50 → verdictOf defaultConfig s = "LOW") ∧
    verdictOf defaultConfig 75 = "HIGH" ∧
    verdictOf defaultConfig 74.999 = "MEDIUM" ∧
    verdictOf defaultConfig 49.999 = "LOW" := by
  have hH : ((defaultConfig.HIGH_THRESHOLD : ℚ) : ℝ) = 75 := by
    norm_num [defaultConfig]
  have hM : ((defaultConfig.MEDIUM_THRESHOLD : ℚ) : ℝ) = 50 := by
    norm_num [defaultConfig]
  have high : ∀ s : ℝ, (75 : ℝ) ≤ s → verdictOf defaultConfig s = "HIGH" := by
    intro s hs
    unfold verdictOf
    rw [hH, if_pos hs]
  have med : ∀ s : ℝ, (50 : ℝ) ≤ s → s < 75 →
      verdictOf defaultConfig s = "MEDIUM" := by
    intro s hs1 hs2
    unfold verdictOf
    rw [hH, hM, if_neg (not_le.mpr hs2), if_pos hs1]
  have lowv : ∀ s : ℝ, s < 50 → verdictOf defaultConfig s = "LOW" := by
    intro s hs
    unfold verdictOf
    rw [hH, hM, if_neg (not_le.mpr (by linarith)), if_neg (not_le.mpr hs)]
  exact ⟨fun enc dim cfg r j => rfl, high, med, lowv,
    high 75 le_rfl, med 74.999 (by norm_num) (by norm_num),
    lowv 49.999 (by norm_num)⟩

/-- Witness for C3 at concrete scores in each tier. -/
theorem C3_verdict_tiers_witness :
    verdictOf defaultConfig 80 = "HIGH" ∧
    verdictOf defaultConfig 60 = "MEDIUM" ∧
    verdictOf defaultConfig 10 = "LOW" :=
  ⟨C3_verdict_tiers.2.1 80 (by norm_num),
   C3_verdict_tiers.2.2.1 60 (by norm_num) (by norm_num),
   C3_verdict_tiers.2.2.2.1 10 (by norm_num)⟩

/-! ### Projection equations for `calculate_hard_match`

Each scores-dict entry of `calculate_hard_match`, re-expressed as its
defining formula (all definitional). -/

/-- Source formula of the `skills_match` entry. -/
theorem skills_match_eq (resume : Resume) (job_desc : Job) :
    (calculate_hard_match resume job_desc).skills_match =
      (if job_desc.required_skills.map low = [] then (70 : ℚ)
       else (((job_desc.required_skills.map low).filter fun s =>
          fuzzy_skill_match s (resume.skills.map low) 80).length : ℚ) /
            ((job_desc.required_skills.map low).length : ℚ) * 70) +
      (if job_desc.optional_skills.map low = [] then (30 : ℚ)
       else (((job_desc.optional_skills.map low).filter fun s =>
          fuzzy_skill_match s (resume.skills.map low) 80).length : ℚ) /
            ((job_desc.optional_skills.map low).length : ℚ) * 30) := rfl

/-- Source formula of the `experience_match` entry. -/
theorem experience_match_eq (resume : Resume) (job_desc : Job) :
    (calculate_hard_match resume job_desc).experience_match =
      (if ((extract_experience_years resume.raw_text : ℚ)) ≥ job_desc.min_experience then
        if ((extract_experience_years resume.raw_text : ℚ)) ≤
            job_desc.max_experience.getD
              (if job_desc.min_experience ≥ 0 then job_desc.min_experience + 10 else 10)
        then (100 : ℚ) else 80
       else
        if job_desc.min_experience > 0 then
          ((extract_experience_years resume.raw_text : ℚ)) / job_desc.min_experience * 100
        else 100) := rfl

/-- Source formula of the `education_match` entry. -/
theorem education_match_eq (resume : Resume) (job_desc : Job) :
    (calculate_hard_match resume job_desc).education_match =
      (if job_desc.education_requirements ≠ [] ∧ resume.education ≠ [] then
        match_education resume.education job_desc.education_requirements * 100
       else 100) := rfl

/-- Source formula of the `certification_match` entry. -/
theorem certification_match_eq (resume : Resume) (job_desc : Job) :
    (calculate_hard_match resume job_desc).certification_match =
      (if job_desc.certifications_required.map low = [] then (100 : ℚ)
       else (((job_desc.certifications_required.map low).filter fun c =>
          fuzzy_skill_match c (resume.certifications.map low) 70).length : ℚ) /
            ((job_desc.certifications_required.map low).length : ℚ) * 100) := rfl

/-- Source formula of the `overall_hard_match` entry. -/
theorem overall_hard_match_eq (resume : Resume) (job_desc : Job) :
    (calculate_hard_match resume job_desc).overall_hard_match =
      (calculate_hard_match resume job_desc).skills_match * 0.5 +
      (calculate_hard_match resume job_desc).experience_match * 0.3 +
      (calculate_hard_match resume job_desc).education_match * 0.15 +
      (calculate_hard_match resume job_desc).certification_match * 0.05 := rfl

/-! ### Evaluation lemmas for the fuzzy matcher

`ℚ` arithmetic does not reduce in the kernel, so concrete fuzzy-match
facts are driven by `Nat`-level side conditions dischargeable by
`decide`. -/

/-- Sufficient fuel makes `lcsFuel` exact on a pair of equal lists. -/
theorem lcsFuel_self (a : List Char) : ∀ f : ℕ, a.length ≤ f →
    lcsFuel f a a = a.length := by
  induction a with
  | nil => intro f _; cases f <;> simp [lcsFuel]
  | cons x xs ih =>
    intro f hf
    cases f with
    | zero => simp at hf
    | succ g =>
      have hg : xs.length ≤ g := by simpa using hf
      simp [lcsFuel, ih g hg]
      omega

/-- A string has LCS of full length with itself. -/
theorem lcs_self (a : List Char) : lcs a a = a.length :=
  lcsFuel_self a _ (by omega)

/-- `fuzz.ratio` of a string with itself is 100. -/
theorem fuzzRatio_self (a : List Char) : fuzzRatio a a = 100 := by
  unfold fuzzRatio
  by_cases h : a.length + a.length = 0
  · rw [if_pos h]
  · rw [if_neg h, lcs_self]
    have hl : (a.length : ℚ) ≠ 0 := by
      exact_mod_cast fun hc => h (by omega)
    field_simp
    ring

/-- A strict `Nat`-level InDel bound forces `fuzz.ratio` under a natural
threshold. -/
theorem fuzzRatio_lt_of (a b : List Char) (t : ℕ)
    (hne : a.length + b.length ≠ 0)
    (h : 200 * lcs a b < t * (a.length + b.length)) :
    fuzzRatio a b < (t : ℚ) := by
  unfold fuzzRatio
  rw [if_neg hne]
  rw [div_lt_iff₀ (by exact_mod_cast Nat.pos_of_ne_zero hne)]
  exact_mod_cast h

/-- A fold of maxima stays under a bound that every element satisfies. -/
theorem foldl_max_lt (t : ℚ) (f : List Char → ℚ) :
    ∀ (ws : List (List Char)) (acc : ℚ), acc < t → (∀ w ∈ ws, f w < t) →
      ws.foldl (fun a w => max a (f w)) acc < t := by
  intro ws
  induction ws with
  | nil => intro acc hacc _; simpa using hacc
  | cons w ws ih =>
    intro acc hacc hall
    simp only [List.foldl_cons]
    exact ih _ (max_lt hacc (hall w (List.mem_cons_self w ws)))
      fun v hv => hall v (List.mem_cons_of_mem w hv)

/-- `fuzz.partial_ratio` is under a natural threshold as soon as every
window clears the `Nat`-level InDel bound (both orientations supplied so
the statement covers either length order). -/
theorem fuzzSubstringRatio_lt_of_all (a b : List Char) (t : ℕ) (hpos : 0 < t)
    (ha : a ≠ []) (hb : b ≠ [])
    (h1 : ((substrs b).all fun w =>
      decide (200 * lcs a w < t * (a.length + w.length))) = true)
    (h2 : ((substrs a).all fun w =>
      decide (200 * lcs b w < t * (b.length + w.length))) = true) :
    fuzzSubstringRatio a b < (t : ℚ) := by
  have halen : a.length ≠ 0 := fun hc => ha (List.eq_nil_of_length_eq_zero hc)
  have hblen : b.length ≠ 0 := fun hc => hb (List.eq_nil_of_length_eq_zero hc)
  unfold fuzzSubstringRatio
  split
  · refine foldl_max_lt _ _ _ 0 (by exact_mod_cast hpos) fun w hw => ?_
    have hcond := List.all_eq_true.mp h1 w hw
    exact fuzzRatio_lt_of a w t (by omega) (by simpa using hcond)
  · refine foldl_max_lt _ _ _ 0 (by exact_mod_cast hpos) fun w hw => ?_
    have hcond := List.all_eq_true.mp h2 w hw
    exact fuzzRatio_lt_of b w t (by omega) (by simpa using hcond)

/-- The fuzzy matcher accepts any exactly-present skill at a threshold of
at most 100. -/
theorem fuzzy_match_of_mem (a : List Char) (rss : List (List Char))
    (t : ℚ) (hmem : a ∈ rss) (ht : t ≤ 100) :
    fuzzy_skill_match a rss t = true := by
  unfold fuzzy_skill_match
  rw [List.any_eq_true]
  refine ⟨a, hmem, ?_⟩
  have hge : fuzzRatio a a ≥ t := by rw [fuzzRatio_self]; exact ht
  simp [hge]

/-- The fuzzy matcher rejects when every resume skill is strictly under
the threshold for both similarity functions. -/
theorem fuzzy_match_false (skill : List Char) (rss : List (List Char)) (t : ℕ)
    (h : ∀ rs ∈ rss, fuzzRatio skill rs < (t : ℚ) ∧
      fuzzSubstringRatio skill rs < (t : ℚ)) :
    fuzzy_skill_match skill rss (t : ℚ) = false := by
  unfold fuzzy_skill_match
  rw [List.any_eq_false]
  intro rs hrs
  obtain ⟨h1, h2⟩ := h rs hrs
  simp only [Bool.or_eq_true, decide_eq_true_eq, ge_iff_le]
  push_neg
  exact ⟨h1, h2⟩

/-- Claim C4: `skills_match` is (fraction of required skills
fuzzy-matched) × 70 plus (fraction of optional skills fuzzy-matched) ×
30, an empty required (resp. optional) list contributing the full 70
(resp. 30); on the spec's concrete scenario — required
`{"python","sql"}`, optional `{"docker"}`, resume skills
`{"Python","AWS"}` — the score is 35, and with no required and no
optional skills it is exactly 100. -/
theorem C4_skills_match :
    (∀ (r : Resume) (j : Job),
      (calculate_hard_match r j).skills_match =
        (if j.required_skills.map low = [] then (70 : ℚ)
         else (((j.required_skills.map low).filter fun s =>
            fuzzy_skill_match s (r.skills.map low) 80).length : ℚ) /
              ((j.required_skills.map low).length : ℚ) * 70) +
        (if j.optional_skills.map low = [] then (30 : ℚ)
         else (((j.optional_skills.map low).filter fun s =>
            fuzzy_skill_match s (r.skills.map low) 80).length : ℚ) /
              ((j.optional_skills.map low).length : ℚ) * 30)) ∧
    (calculate_hard_match rC4 jC4).skills_match = 35 ∧
    (calculate_hard_match rC4 emptyJob).skills_match = 100 := by
  have h80 : ((80 : ℕ) : ℚ) = 80 := by norm_num
  have hmap : rC4.skills.map low =
      [['p','y','t','h','o','n'], ['a','w','s']] := by decide
  have hpy : fuzzy_skill_match ['p','y','t','h','o','n']
      (rC4.skills.map low) 80 = true := by
    apply fuzzy_match_of_mem
    · rw [hmap]; exact List.mem_cons_self _ _
    · norm_num
  have hsql : fuzzy_skill_match ['s','q','l']
      (rC4.skills.map low) 80 = false := by
    rw [← h80]
    apply fuzzy_match_false
    intro rs hrs
    rw [hmap] at hrs
    fin_cases hrs
    · exact ⟨fuzzRatio_lt_of _ _ 80 (by decide) (by decide),
        fuzzSubstringRatio_lt_of_all _ _ 80 (by norm_num) (by decide) (by decide)
          (by decide) (by decide)⟩
    · exact ⟨fuzzRatio_lt_of _ _ 80 (by decide) (by decide),
        fuzzSubstringRatio_lt_of_all _ _ 80 (by norm_num) (by decide) (by decide)
          (by decide) (by decide)⟩
  have hdoc : fuzzy_skill_match ['d','o','c','k','e','r']
      (rC4.skills.map low) 80 = false := by
    rw [← h80]
    apply fuzzy_match_false
    intro rs hrs
    rw [hmap] at hrs
    fin_cases hrs
    · exact ⟨fuzzRatio_lt_of _ _ 80 (by decide) (by decide),
        fuzzSubstringRatio_lt_of_all _ _ 80 (by norm_num) (by decide) (by decide)
          (by decide) (by decide)⟩
    · exact ⟨fuzzRatio_lt_of _ _ 80 (by decide) (by decide),
        fuzzSubstringRatio_lt_of_all _ _ 80 (by norm_num) (by decide) (by decide)
          (by decide) (by decide)⟩
  refine ⟨fun r j => skills_match_eq r j, ?_, ?_⟩
  · rw [skills_match_eq]
    have hreq : jC4.required_skills.map low =
        [['p','y','t','h','o','n'], ['s','q','l']] := by decide
    have hopt : jC4.optional_skills.map low = [['d','o','c','k','e','r']] := by
      decide
    rw [hreq, hopt]
    have hfilt1 : ([['p','y','t','h','o','n'], ['s','q','l']].filter fun s =>
        fuzzy_skill_match s (rC4.skills.map low) 80) =
          [['p','y','t','h','o','n']] := by
      simp only [List.filter, hpy, hsql]
    have hfilt2 : ([['d','o','c','k','e','r']].filter fun s =>
        fuzzy_skill_match s (rC4.skills.map low) 80) =
          ([] : List (List Char)) := by
      simp only [List.filter, hdoc]
    rw [if_neg (by decide), if_neg (by decide), hfilt1, hfilt2]
    norm_num
  · rw [skills_match_eq]
    norm_num [emptyJob]

/-- Claim C5 (amended): when the job lists education requirements and the
resume has at least one education entry, `education_match` is 100 times
the fraction of requirement strings found as a case-insensitive literal
substring of the space-joined degree/context strings; when the job lists
no requirements — or the resume has no education entries at all, even
against a job with requirements — it is 100. -/
theorem C5_education_match (r : Resume) (j : Job) :
    (j.education_requirements ≠ [] → r.education ≠ [] →
      (calculate_hard_match r j).education_match =
        ((j.education_requirements.countP fun req =>
            isSubstr (low req) (List.intercalate [' ']
              (r.education.flatMap fun e => [low e.degree, low e.context]))) : ℚ) /
          (j.education_requirements.length : ℚ) * 100) ∧
    ((j.education_requirements = [] ∨ r.education = []) →
      (calculate_hard_match r j).education_match = 100) := by
  constructor
  · intro h1 h2
    rw [education_match_eq, if_pos ⟨h1, h2⟩]
    unfold match_education
    rw [if_neg h1]
  · intro h
    rw [education_match_eq, if_neg]
    intro hc
    rcases h with h | h
    · exact hc.1 h
    · exact hc.2 h

/-- Witness for C5: both branches instantiated — a matching education
entry scores by the fraction formula, and empty requirement lists give
full credit. -/
theorem C5_education_match_witness :
    (calculate_hard_match rC5b jC5).education_match =
      ((jC5.education_requirements.countP fun req =>
          isSubstr (low req) (List.intercalate [' ']
            (rC5b.education.flatMap fun e => [low e.degree, low e.context]))) : ℚ) /
        (jC5.education_requirements.length : ℚ) * 100 ∧
    (calculate_hard_match emptyResume emptyJob).education_match = 100 :=
  ⟨(C5_education_match rC5b jC5).1 (by decide) (by decide),
   (C5_education_match emptyResume emptyJob).2 (Or.inl rfl)⟩

/-- Counterexample to C5 as stated: a resume with no education entries
against a job that requires `"bachelor"` scores 100, while the claimed
fraction formula yields 0 (no requirement is found in the empty
education text). -/
theorem C5_counterexample :
    (calculate_hard_match emptyResume jC5).education_match = 100 ∧
    ((jC5.education_requirements.countP fun req =>
        isSubstr (low req) (List.intercalate [' ']
          (emptyResume.education.flatMap fun e => [low e.degree, low e.context]))) : ℚ) /
      (jC5.education_requirements.length : ℚ) * 100 = 0 ∧
    (100 : ℚ) ≠ 0 := by
  refine ⟨?_, ?_, by norm_num⟩
  · rw [education_match_eq, if_neg]
    intro hc
    exact hc.2 rfl
  · have hc : (jC5.education_requirements.countP fun req =>
        isSubstr (low req) (List.intercalate [' ']
          (emptyResume.education.flatMap fun e => [low e.degree, low e.context]))) = 0 := by
      decide
    rw [hc]
    norm_num

/-- Claim C8: `experience_match` is 100 when the extracted years lie in
`[min_experience, max_experience]`, 80 above `max_experience`,
`(years / min_experience) × 100` below a positive `min_experience`, and
100 in the zero-minimum fallback branch; a missing `max_experience`
defaults to `min_experience + 10` (for the non-negative minima the data
model allows).  A resume with no experience text extracts 0 years, so
with `min_experience = 0` it scores exactly 100. -/
theorem C8_experience_match :
    (∀ (r : Resume) (j : Job),
      (calculate_hard_match r j).experience_match =
        (if ((extract_experience_years r.raw_text : ℚ)) ≥ j.min_experience then
          if ((extract_experience_years r.raw_text : ℚ)) ≤
              j.max_experience.getD
                (if j.min_experience ≥ 0 then j.min_experience + 10 else 10)
          then (100 : ℚ) else 80
         else if j.min_experience > 0 then
          ((extract_experience_years r.raw_text : ℚ)) / j.min_experience * 100
         else 100)) ∧
    extract_experience_years "" = 0 ∧
    (calculate_hard_match emptyResume emptyJob).experience_match = 100 := by
  refine ⟨fun r j => experience_match_eq r j, by decide, ?_⟩
  rw [experience_match_eq]
  have h0 : extract_experience_years emptyResume.raw_text = 0 := by decide
  rw [h0]
  norm_num [emptyJob]

/-- Claim C10: the stored `relevance_score` is the clamped score rounded
to two decimals while the verdict is computed from the unrounded clamped
score; on a concrete evaluation whose raw combined score is 74.996 (in
`[74.995, 75)`), the stored score is exactly 75.0 — at the HIGH
threshold — while the stored verdict is `MEDIUM`. -/
theorem C10_rounding_vs_verdict :
    (∀ (enc : String → List ℚ) (dim : ℕ) (cfg : Config) (r : Resume) (j : Job),
      (evaluate_resume enc dim cfg r j).relevance_score =
        pyRound2 (relevance_raw enc dim cfg r j) ∧
      (evaluate_resume enc dim cfg r j).verdict =
        verdictOf cfg (relevance_raw enc dim cfg r j)) ∧
    relevance_raw encZero 0 defaultConfig rC10 jC10 = 18749 / 250 ∧
    (74995 / 1000 : ℝ) ≤ 18749 / 250 ∧ ((18749 / 250 : ℝ)) < 75 ∧
    (evaluate_resume encZero 0 defaultConfig rC10 jC10).relevance_score = 75 ∧
    ((defaultConfig.HIGH_THRESHOLD : ℚ) : ℝ) ≤ 75 ∧
    (evaluate_resume encZero 0 defaultConfig rC10 jC10).verdict = "MEDIUM" := by
  -- hard-match components of the concrete instance
  have hrsk : rC10.skills.map low = ([] : List (List Char)) := by decide
  have hreq : jC10.required_skills.map low = [['p','y','t','h','o','n']] := by
    decide
  have hf : fuzzy_skill_match ['p','y','t','h','o','n'] ([] : List (List Char))
      80 = false := by decide
  have hskills : (calculate_hard_match rC10 jC10).skills_match = 30 := by
    rw [skills_match_eq, hrsk, hreq]
    have hfilt : ([['p','y','t','h','o','n']].filter fun s =>
        fuzzy_skill_match s ([] : List (List Char)) 80) =
          ([] : List (List Char)) := by
      simp only [List.filter, hf]
    rw [hfilt, if_neg (by decide), if_pos (by decide)]
    norm_num
  have hexp : (calculate_hard_match rC10 jC10).experience_match = 283 / 10 := by
    rw [experience_match_eq]
    have hex : extract_experience_years rC10.raw_text = 283 := by decide
    have hmn : jC10.min_experience = 1000 := rfl
    have hmx : jC10.max_experience = none := rfl
    rw [hex, hmn, hmx]
    norm_num
  have hedu : (calculate_hard_match rC10 jC10).education_match = 100 := by
    rw [education_match_eq, if_neg]
    intro hc
    exact hc.1 rfl
  have hcert : (calculate_hard_match rC10 jC10).certification_match = 100 := by
    rw [certification_match_eq, if_pos (by decide)]
  have hhard : (calculate_hard_match rC10 jC10).overall_hard_match = 4349 / 100 := by
    rw [overall_hard_match_eq, hskills, hexp, hedu, hcert]
    norm_num
  -- embedding similarity of the concrete instance
  have hres1 : resolveEmbedding encZero 0 rC10.embeddings rC10.processed_text =
      [3, 4] := by
    simp [resolveEmbedding, rC10, emptyResume]
  have hres2 : resolveEmbedding encZero 0 jC10.embeddings jC10.processed_text =
      [4, 3] := by
    simp [resolveEmbedding, jC10, emptyJob]
  have hn1 : normV [(3 : ℚ), 4] = 5 := by
    have hd : ((dotQ [(3 : ℚ), 4] [3, 4] : ℚ) : ℝ) = 25 := by norm_num [dotQ]
    rw [normV, hd, show (25 : ℝ) = 5 ^ 2 by norm_num,
      Real.sqrt_sq (by norm_num : (0 : ℝ) ≤ 5)]
  have hn2 : normV [(4 : ℚ), 3] = 5 := by
    have hd : ((dotQ [(4 : ℚ), 3] [4, 3] : ℚ) : ℝ) = 25 := by norm_num [dotQ]
    rw [normV, hd, show (25 : ℝ) = 5 ^ 2 by norm_num,
      Real.sqrt_sq (by norm_num : (0 : ℝ) ≤ 5)]
  have hsoft : soft_score_used encZero 0 rC10 jC10 = 96 := by
    rw [soft_score_used, hres1, hres2, calculate_similarity,
      if_neg (by rw [hn1, hn2]; norm_num), hn1, hn2]
    have hd : ((dotQ [(3 : ℚ), 4] [4, 3] : ℚ) : ℝ) = 24 := by norm_num [dotQ]
    rw [hd]
    norm_num
  -- raw combined score
  have hwh : defaultConfig.HARD_MATCH_WEIGHT = 2 / 5 := by
    norm_num [defaultConfig]
  have hws : defaultConfig.SOFT_MATCH_WEIGHT = 3 / 5 := by
    norm_num [defaultConfig]
  have hraw : relevance_raw encZero 0 defaultConfig rC10 jC10 = 18749 / 250 := by
    simp only [relevance_raw, hhard, hsoft, hwh, hws]
    have hv : ((4349 / 100 : ℚ) : ℝ) * ((2 / 5 : ℚ) : ℝ) +
        96 * ((3 / 5 : ℚ) : ℝ) = 18749 / 250 := by
      push_cast
      norm_num
    rw [hv, if_neg (by norm_num : ¬ (18749 / 250 : ℝ) > 100),
      if_neg (by norm_num : ¬ (18749 / 250 : ℝ) < 0)]
  -- the rounded stored score
  have hrel : (evaluate_resume encZero 0 defaultConfig rC10 jC10).relevance_score =
      pyRound2 (relevance_raw encZero 0 defaultConfig rC10 jC10) := rfl
  have hround : pyRound2 ((18749 / 250 : ℝ)) = 75 := by
    unfold pyRound2
    have hx : (18749 / 250 : ℝ) * 100 = 37498 / 5 := by norm_num
    rw [hx]
    have hfl : ⌊(37498 / 5 : ℝ)⌋ = 7499 := by
      rw [Int.floor_eq_iff]
      constructor <;> norm_num
    unfold roundHalfToEven
    rw [hfl]
    rw [if_neg (by push_cast; norm_num), if_pos (by push_cast; norm_num)]
    push_cast
    norm_num
  -- the verdict from the unrounded score
  have hverd : (evaluate_resume encZero 0 defaultConfig rC10 jC10).verdict =
      verdictOf defaultConfig (relevance_raw encZero 0 defaultConfig rC10 jC10) :=
    rfl
  have hvm : verdictOf defaultConfig ((18749 / 250 : ℝ)) = "MEDIUM" := by
    unfold verdictOf
    rw [show ((defaultConfig.HIGH_THRESHOLD : ℚ) : ℝ) = 75 by
        norm_num [defaultConfig],
      show ((defaultConfig.MEDIUM_THRESHOLD : ℚ) : ℝ) = 50 by
        norm_num [defaultConfig]]
    rw [if_neg (by norm_num), if_pos (by norm_num)]
  refine ⟨fun enc dim cfg r j => ⟨rfl, rfl⟩, hraw, by norm_num, by norm_num,
    ?_, by norm_num [defaultConfig], ?_⟩
  · rw [hrel, hraw, hround]
  · rw [hverd, hraw, hvm]

/-- Claim C1 (amended): the soft score the fusion engine combines is
`EmbeddingService.calculate_similarity` of the two resolved embeddings —
which coincides with the Soft-Match Scorer's `embedding_similarity`
sub-score whenever both embeddings are present — and not the weighted
`overall_soft_match`. -/
theorem C1_soft_score (enc : String → List ℚ) (dim : ℕ) (t : ℚ)
    (rt jt : String) (v1 v2 : List ℚ) (r : Resume) (j : Job) :
    soft_score_used enc dim r j =
      calculate_similarity
        (resolveEmbedding enc dim r.embeddings r.processed_text)
        (resolveEmbedding enc dim j.embeddings j.processed_text) ∧
    (calculate_soft_match t rt jt (some v1) (some v2)).embedding_similarity =
      calculate_similarity v1 v2 := by
  refine ⟨rfl, ?_⟩
  show cosine_similarity v1 v2 * 100 = calculate_similarity v1 v2
  unfold cosine_similarity calculate_similarity
  by_cases h : normV v1 = 0 ∨ normV v2 = 0
  · rw [if_pos h, if_pos h]
    ring
  · rw [if_neg h, if_neg h]

/-- Counterexample to C1 as stated: on records whose texts are pure stop
words (TF-IDF raises on the empty vocabulary and is caught to 0, and no
keyword survives extraction) with identical unit embeddings, the fusion
engine combines a soft score of 100 while the Soft-Match Scorer's
`overall_soft_match` is 50. -/
theorem C1_counterexample :
    soft_score_used encZero 0 rC1 jC1 = 100 ∧
    (calculate_soft_match 0 rC1.processed_text jC1.processed_text
        rC1.embeddings jC1.embeddings).overall_soft_match = 50 ∧
    (100 : ℝ) ≠ 50 := by
  have hn : normV [(1 : ℚ)] = 1 := by
    simp [normV, dotQ]
  have hsim : calculate_similarity [(1 : ℚ)] [1] = 100 := by
    rw [calculate_similarity, if_neg (by rw [hn]; norm_num), hn]
    norm_num [dotQ]
  have hcos : cosine_similarity [(1 : ℚ)] [1] = 1 := by
    rw [cosine_similarity, if_neg (by rw [hn]; norm_num), hn]
    norm_num [dotQ]
  refine ⟨?_, ?_, by norm_num⟩
  · have hres : resolveEmbedding encZero 0 rC1.embeddings rC1.processed_text =
        [1] := by
      simp [resolveEmbedding, rC1, emptyResume]
    have hres2 : resolveEmbedding encZero 0 jC1.embeddings jC1.processed_text =
        [1] := by
      simp [resolveEmbedding, jC1, emptyJob]
    rw [soft_score_used, hres, hres2, hsim]
  · rw [show rC1.embeddings = some [1] from rfl,
      show jC1.embeddings = some [1] from rfl,
      show jC1.processed_text = "of the and" from rfl,
      show rC1.processed_text = "of the and" from rfl]
    have hkw : extract_keywords "of the and" = [] := by decide
    simp only [calculate_soft_match, hkw, hcos]
    norm_num

/-- Claim C9: appending to the job's required-skill list a skill that
already fuzzy-matches one of the resume's (lowercased) skills never
decreases `skills_match`, including from the 70-point empty-list
default. -/
theorem C9_required_skill_monotone (r : Resume) (j : Job) (s : String)
    (h : fuzzy_skill_match (low s) (r.skills.map low) 80 = true) :
    (calculate_hard_match r j).skills_match ≤
      (calculate_hard_match r
        { j with required_skills := j.required_skills ++ [s] }).skills_match := by
  rw [skills_match_eq, skills_match_eq]
  have hopt : ({ j with required_skills := j.required_skills ++ [s] } : Job).optional_skills
      = j.optional_skills := rfl
  rw [hopt]
  refine add_le_add_right ?_ _
  have hreqmap : ({ j with required_skills := j.required_skills ++ [s] } : Job).required_skills.map low
      = j.required_skills.map low ++ [low s] := by
    simp
  rw [hreqmap]
  have hfilterapp : ((j.required_skills.map low ++ [low s]).filter fun s' =>
      fuzzy_skill_match s' (r.skills.map low) 80) =
        (j.required_skills.map low).filter (fun s' =>
          fuzzy_skill_match s' (r.skills.map low) 80) ++ [low s] := by
    rw [List.filter_append]
    simp [List.filter, h]
  by_cases hL : j.required_skills.map low = []
  · rw [if_pos hL, if_neg (by simp [hL]), hL]
    simp [List.filter, h]
  · rw [if_neg hL, if_neg (by simp [hL]), hfilterapp]
    have hm : ((j.required_skills.map low).filter fun s' =>
        fuzzy_skill_match s' (r.skills.map low) 80).length ≤
          (j.required_skills.map low).length :=
      List.length_filter_le _ _
    have hLpos : 0 < (j.required_skills.map low).length :=
      List.length_pos.mpr hL
    simp only [List.length_append, List.length_cons, List.length_nil]
    set m := ((j.required_skills.map low).filter fun s' =>
      fuzzy_skill_match s' (r.skills.map low) 80).length with hmdef
    set n := (j.required_skills.map low).length with hndef
    have hmn : (m : ℚ) ≤ n := by exact_mod_cast hm
    have hn0 : (0 : ℚ) < n := by exact_mod_cast hLpos
    have hn1 : (0 : ℚ) < (n : ℚ) + 1 := by linarith
    rw [div_mul_eq_mul_div, div_mul_eq_mul_div, div_le_div_iff₀ hn0 (by push_cast at hn1 ⊢; exact_mod_cast hn1)]
    push_cast
    nlinarith

/-- Witness for C9: appending `"Python"` to an empty required list
against a resume holding `"python"`. -/
theorem C9_required_skill_monotone_witness :
    (calculate_hard_match rC9 emptyJob).skills_match ≤
      (calculate_hard_match rC9
        { emptyJob with
          required_skills := emptyJob.required_skills ++ ["Python"] }).skills_match :=
  C9_required_skill_monotone rC9 emptyJob "Python" (by
    apply fuzzy_match_of_mem
    · show low "Python" ∈ rC9.skills.map low
      decide
    · norm_num)

/-! ### The vector-store invariant (C7) -/

/-- Inserting a fresh key grows a Python dict by exactly one entry. -/
theorem dictInsert_length_of_not_mem {V : Type} (m : List (String × V))
    (k : String) (v : V) (h : k ∉ m.map Prod.fst) :
    (dictInsert m k v).length = m.length + 1 := by
  induction m with
  | nil => rfl
  | cons kv rest ih =>
    have hne : kv.1 ≠ k := by
      intro hc
      exact h (by simp [hc])
    have hrest : k ∉ rest.map Prod.fst := fun hc => h (by simp [hc])
    cases kv with
    | mk k' v' =>
      simp only [dictInsert, if_neg hne, List.length_cons, ih hrest]

/-- Inserting a fresh key appends it to the dict's key sequence. -/
theorem dictInsert_keys_of_not_mem {V : Type} (m : List (String × V))
    (k : String) (v : V) (h : k ∉ m.map Prod.fst) :
    (dictInsert m k v).map Prod.fst = m.map Prod.fst ++ [k] := by
  induction m with
  | nil => rfl
  | cons kv rest ih =>
    have hne : kv.1 ≠ k := by
      intro hc
      exact h (by simp [hc])
    have hrest : k ∉ rest.map Prod.fst := fun hc => h (by simp [hc])
    cases kv with
    | mk k' v' =>
      simp only [dictInsert, if_neg hne, List.map_cons, ih hrest,
        List.cons_append]

/-- One store call on a fresh hashed id grows index and metadata by one
entry each (whether or not the first insert attempt fails, since the
no-op rebuild is followed by a retry). -/
theorem store_step_invariant (enc : String → List ℚ) (dim : ℕ)
    (strToId : String → ℤ) (s : StoreState) (rid text : String) (flag : Bool)
    (hinv : storeInvariant s)
    (hfresh : toString (strToId rid) ∉ s.meta.map Prod.fst) :
    storeInvariant (store_resume_embedding enc dim strToId s rid text flag) := by
  unfold storeInvariant store_resume_embedding rebuild_index_from_meta at *
  cases flag <;>
    simp [List.length_append, hinv,
      dictInsert_length_of_not_mem s.meta _ _ hfresh]

/-- Claim C7 (amended): along any sequence of stores whose hashed record
ids are pairwise distinct and absent from the starting metadata map, the
index size equals the metadata size after every operation (each
operation adds exactly one row to each, with the no-op rebuild-and-retry
taken on a failed first insert). -/
theorem C7_store_invariant (enc : String → List ℚ) (dim : ℕ)
    (strToId : String → ℤ) (s0 : StoreState)
    (ops : List (String × String × Bool))
    (h0 : storeInvariant s0)
    (hdist : (ops.map fun op => toString (strToId op.1)).Nodup)
    (hnew : ∀ op ∈ ops, toString (strToId op.1) ∉ s0.meta.map Prod.fst) :
    storeInvariant (runStores enc dim strToId s0 ops) := by
  induction ops generalizing s0 with
  | nil => simpa [runStores] using h0
  | cons op ops ih =>
    have hfresh : toString (strToId op.1) ∉ s0.meta.map Prod.fst :=
      hnew op (List.mem_cons_self _ _)
    have hstep := store_step_invariant enc dim strToId s0 op.1 op.2.1 op.2.2 h0 hfresh
    have hkeys : (store_resume_embedding enc dim strToId s0 op.1 op.2.1
        op.2.2).meta.map Prod.fst = s0.meta.map Prod.fst ++ [toString (strToId op.1)] := by
      unfold store_resume_embedding
      exact dictInsert_keys_of_not_mem s0.meta _ _ hfresh
    have hdist' : (ops.map fun o => toString (strToId o.1)).Nodup :=
      (List.nodup_cons.mp hdist).2
    have hhead : toString (strToId op.1) ∉
        ops.map fun o => toString (strToId o.1) :=
      (List.nodup_cons.mp hdist).1
    have hnew' : ∀ o ∈ ops, toString (strToId o.1) ∉
        (store_resume_embedding enc dim strToId s0 op.1 op.2.1 op.2.2).meta.map
          Prod.fst := by
      intro o ho
      rw [hkeys]
      intro hc
      rcases List.mem_append.mp hc with hc | hc
      · exact hnew o (List.mem_cons_of_mem _ ho) hc
      · have : toString (strToId o.1) = toString (strToId op.1) := by
          simpa using hc
        exact hhead (this ▸ List.mem_map_of_mem (fun o => toString (strToId o.1)) ho)
    simpa [runStores, List.foldl_cons] using
      ih (store_resume_embedding enc dim strToId s0 op.1 op.2.1 op.2.2)
        hstep hdist' hnew'

/-- Witness for C7: two stores with distinct hashed ids (the second with
a failing first insert) starting from the empty state. -/
theorem C7_store_invariant_witness :
    storeInvariant (runStores encZero 0 (fun rid => (rid.length : ℤ))
      ⟨[], []⟩ [("a", "", false), ("bb", "", true)]) :=
  C7_store_invariant encZero 0 (fun rid => (rid.length : ℤ)) ⟨[], []⟩
    [("a", "", false), ("bb", "", true)] rfl (by decide) (by decide)

/-- Counterexample to C7 as stated: re-inserting the same record id adds
a second vector with the same id to the FAISS index while the metadata
dict overwrites its entry in place, so after the second store the index
holds 2 vectors but the metadata map 1 entry. -/
theorem C7_counterexample :
    ¬ storeInvariant (runStores encZero 0 (fun _ => 0) ⟨[], []⟩
        [("r1", "", false), ("r1", "", false)]) ∧
    (runStores encZero 0 (fun _ => 0) ⟨[], []⟩
        [("r1", "", false), ("r1", "", false)]).index.length = 2 ∧
    (runStores encZero 0 (fun _ => 0) ⟨[], []⟩
        [("r1", "", false), ("r1", "", false)]).meta.length = 1 := by
  refine ⟨?_, by decide, by decide⟩
  unfold storeInvariant
  decide
